import Mathlib

/-!
# Verification of VidSubX core components

Shallow embedding of the VidSubX subtitle-extraction pipeline's pure core:
time-code formatting (`shared/utils.py`), the batch OCR run loop
(`extraction/frames_to_text.py`), future cancellation (`shared/utils.py`),
the configuration loader/updater (`shared/config.py`) and the performance
optimiser (`utilities/auto_perf_opti.py`), together with theorems about the
behaviour documented for them.
-/

namespace VidSubX

/-! ## Time codes (`shared/utils.py`, `timecode`)

`zpad w n` models the Python format directive `"%0wd"` applied to a
non-negative integer: decimal digits left-padded with `'0'` to a minimum
width of `w` (wider numbers are printed in full). -/

def zpad (w : Nat) (n : Nat) : String :=
  let s := toString n
  String.mk (List.replicate (w - s.length) '0') ++ s

/-- Embedding of `timecode` (`shared/utils.py`).  The source computes on a
float; the embedding covers the whole-millisecond offsets the pipeline
feeds it (`//` and `%` there are flooring division and remainder, which on
integral inputs agree with `Nat` division and modulus). -/
def timecode (frame_no_in_milliseconds : Nat) : String :=
  let total_seconds := frame_no_in_milliseconds / 1000
  let milliseconds_remainder := frame_no_in_milliseconds % 1000
  let seconds := total_seconds % 60
  let minutes := (total_seconds / 60) % 60
  let hours := total_seconds / 3600
  zpad 2 hours ++ ":" ++ zpad 2 minutes ++ ":" ++ zpad 2 seconds ++ "," ++ zpad 3 milliseconds_remainder

/-! ## Batch OCR run (`extraction/frames_to_text.py`, `frames_to_text`;
`shared/utils.py`, `print_progress` and `cancel_futures`)

The run submits one future per file batch to a `ThreadPoolExecutor` and then
iterates `enumerate(as_completed(futures))`.  The embedding abstracts the
scheduler: `results` is the list of worker outcomes in completion order, and
`flag i` is the value of the shared `Process.interrupt_process` flag observed
at the check inside iteration `i` (`preFlag` is its value at the check before
the pool is created). -/

/-- Result of one worker call of `extract_text` for one batch: normal return
or a raised exception (represented by its message). -/
inductive Outcome where
  | ok : Outcome
  | err : String → Outcome
deriving DecidableEq

/-- How a `frames_to_text` call ends: falls off the loop normally, re-raises
a worker exception, or returns early after an interrupt. -/
inductive RunResult where
  | completed : RunResult
  | failed : String → RunResult
  | interrupted : RunResult
deriving DecidableEq

/-- Observable effects of one `frames_to_text` call. -/
structure RunTrace where
  /-- number of futures whose `f.result()` was evaluated -/
  inspected : Nat
  /-- progress reports emitted, in order -/
  reports : List (Nat × Nat)
  /-- number of `optimizer.record_perf()` calls -/
  perfRecords : Nat
  /-- whether `cancel_futures` was invoked -/
  cancelSignalled : Bool
  result : RunResult
deriving DecidableEq

/-- Embedding of `print_progress` (`shared/utils.py`) at the granularity the
claims need: the report it renders is determined by the `(iteration, total)`
pair it receives, and it returns without printing anything when `total == 0`.
`none` models the silent early return. -/
def print_progress (iteration total : Nat) : Option (Nat × Nat) :=
  if total = 0 then none else some (iteration, total)

/-- The `for i, f in enumerate(as_completed(futures))` loop of
`frames_to_text`: `f.result()` re-raises a worker exception; otherwise the
progress bar is updated, the interrupt flag is checked (cancelling all
futures and returning early when set), and a performance sample is
recorded. `i` is the enumeration index of the first element of `results`,
`n` the total number of batches. -/
def fttLoop (n : Nat) (flag : Nat → Bool) : List Outcome → Nat → RunTrace
  | [], _ =>
      { inspected := 0, reports := [], perfRecords := 0, cancelSignalled := false,
        result := .completed }
  | o :: rest, i =>
      match o with
      | .err e =>
          { inspected := 1, reports := [], perfRecords := 0, cancelSignalled := false,
            result := .failed e }
      | .ok =>
          let rep := (print_progress i (n - 1)).toList
          if flag i then
            { inspected := 1, reports := rep, perfRecords := 0, cancelSignalled := true,
              result := .interrupted }
          else
            let t := fttLoop n flag rest (i + 1)
            { inspected := t.inspected + 1, reports := rep ++ t.reports,
              perfRecords := t.perfRecords + 1, cancelSignalled := t.cancelSignalled,
              result := t.result }

/-- Embedding of `frames_to_text` (`extraction/frames_to_text.py`): an early
interrupt check before the pool is created, then the completion loop over
all submitted batches. -/
def frames_to_text (preFlag : Bool) (flag : Nat → Bool) (results : List Outcome) : RunTrace :=
  if preFlag then
    { inspected := 0, reports := [], perfRecords := 0, cancelSignalled := false,
      result := .interrupted }
  else
    fttLoop results.length flag results 0

/-! ### Per-frame text artifacts (`extraction/frames_to_text.py`, `extract_text`) -/

/-- Index of the last occurrence of `c` in `l`, if any (Python `str.rfind`,
with `none` for the `-1` "not found" result). -/
def rfindIdx (l : List Char) (c : Char) : Option Nat :=
  (l.reverse.findIdx? (· = c)).map (fun j => l.length - 1 - j)

/-- Embedding of `pathlib.PurePath.stem` on a file name: the name up to its
last `'.'` when that dot is neither the leading nor the trailing character,
the whole name otherwise. -/
def stem (name : String) : String :=
  let l := name.toList
  match rfindIdx l '.' with
  | some i => if 0 < i ∧ i < l.length - 1 then String.mk (l.take i) else name
  | none => name

/-- One file written by `extract_text`: path, encoding and content. -/
structure TextWrite where
  path : String
  encoding : String
  content : String
deriving DecidableEq

/-- The line separator chosen by `frames_to_text` from the `line_break`
configuration flag. -/
def line_sep (line_break : Bool) : String := if line_break then "\n" else " "

/-- Embedding of `extract_text` (`extraction/frames_to_text.py`): for each
file in the batch, run the OCR engine (`predict f` models
`ocr_engine.predict(str(file))[0]["rec_texts"]`), join the recognized lines
with `sep` and write them UTF-8 encoded to `{text_output}/{file.stem}.txt`. -/
def extract_text (predict : String → List String) (text_output : String) :
    List String → String → List TextWrite
  | [], _ => []
  | f :: rest, sep =>
      { path := text_output ++ "/" ++ stem f ++ ".txt", encoding := "utf-8",
        content := String.intercalate sep (predict f) } :: extract_text predict text_output rest sep

/-- State of a `concurrent.futures.Future`. -/
inductive FutureState where
  | pending : FutureState
  | running : FutureState
  | finished : FutureState
  | cancelledF : FutureState
deriving DecidableEq

/-- `Future.cancel`: a pending (not-yet-started) future becomes cancelled;
a running or finished future is unaffected (the call returns `False`). -/
def futureCancel : FutureState → FutureState
  | .pending => .cancelledF
  | s => s

/-- Embedding of `cancel_futures` (`shared/utils.py`): attempts to cancel
every future in the list. -/
def cancel_futures (futures : List FutureState) : List FutureState :=
  futures.map futureCancel

/-! ## Performance optimiser (`utilities/auto_perf_opti.py`)

Utilization percentages (Python floats from `psutil`/`pynvml`) are embedded
as rationals; the thresholds and the sample arithmetic (`sum / len`) are
exact at the precision the claims discuss. -/

/-- The configuration attributes named in the optimiser's `values` tuple:
the ones it loads at construction and persists back. -/
structure PerfConfig where
  cpu_ocr_processes : Int
  cpu_onnx_intra_threads : Int
  gpu_ocr_processes : Int
  gpu_onnx_intra_threads : Int
deriving DecidableEq

/-- The configuration store as the optimiser sees it: current values plus a
count of the file rewrites performed by `Config.set_config`. -/
structure PerfStore where
  vals : PerfConfig
  writes : Nat
deriving DecidableEq

/-- Exceptions the optimiser can raise while tuning. -/
inductive PerfError where
  /-- `list.pop()` on an empty list -/
  | indexError
  /-- `sum(l) / len(l)` with `len(l) == 0` -/
  | zeroDivisionError
deriving DecidableEq

/-- State of a `PerformanceOptimiser` instance. -/
structure Optimiser where
  cpu_ocr_processes : Int
  cpu_onnx_intra_threads : Int
  gpu_ocr_processes : Int
  gpu_onnx_intra_threads : Int
  use_gpu : Bool
  cpu_percentages : List Rat
  gpu_percentages : List Rat
deriving DecidableEq

/-- `PerformanceOptimiser.__init__`: copies the four tuned values from the
configuration store and starts with empty sample lists. -/
def Optimiser.init (c : PerfConfig) (use_gpu : Bool) : Optimiser :=
  { cpu_ocr_processes := c.cpu_ocr_processes,
    cpu_onnx_intra_threads := c.cpu_onnx_intra_threads,
    gpu_ocr_processes := c.gpu_ocr_processes,
    gpu_onnx_intra_threads := c.gpu_onnx_intra_threads,
    use_gpu := use_gpu, cpu_percentages := [], gpu_percentages := [] }

/-- `record_perf`: appends the observed utilization percentage (`usage`
models the value read from `psutil.cpu_percent()` /
`pynvml.nvmlDeviceGetUtilizationRates`) to the device's sample list. -/
def Optimiser.record_perf (o : Optimiser) (usage : Rat) : Optimiser :=
  if o.use_gpu then { o with gpu_percentages := o.gpu_percentages ++ [usage] }
  else { o with cpu_percentages := o.cpu_percentages ++ [usage] }

/-- A sequence of `record_perf` calls, one per completed batch. -/
def Optimiser.recordAll (o : Optimiser) (usages : List Rat) : Optimiser :=
  usages.foldl Optimiser.record_perf o

/-- Python `list.pop()`: removes and discards the last element, raising
`IndexError` on an empty list. -/
def listPop (l : List Rat) : Except PerfError (List Rat) :=
  if l.isEmpty then .error .indexError else .ok l.dropLast

/-- Arithmetic mean, as written in the source: `sum(l) / len(l)`. -/
def ratMean (l : List Rat) : Rat := l.sum / (l.length : Rat)

/-- `sum(l) / len(l)` with Python's `ZeroDivisionError` on an empty list. -/
def listMean (l : List Rat) : Except PerfError Rat :=
  if l.isEmpty then .error .zeroDivisionError else .ok (ratMean l)

/-- `PerformanceOptimiser._optimize_cpu_usage`; `nc` models
`utils.get_physical_cores()`.  A raised `IndexError`/`ZeroDivisionError`
propagates out as the `.error` case. -/
def Optimiser.optimize_cpu_usage (nc : Nat) (o : Optimiser) : Except PerfError Optimiser :=
  match listPop o.cpu_percentages with
  | .error e => .error e
  | .ok remaining =>
    match listMean remaining with
    | .error e => .error e
    | .ok cpu_util =>
      if cpu_util < 80 ∧ o.cpu_ocr_processes < (nc : Int) then
        .ok { o with cpu_percentages := remaining, cpu_ocr_processes := o.cpu_ocr_processes + 1 }
      else if 95 < cpu_util then
        .ok { o with cpu_percentages := remaining, cpu_ocr_processes := o.cpu_ocr_processes - 1 }
      else
        .ok { o with cpu_percentages := remaining }

/-- `PerformanceOptimiser._optimize_gpu_usage`. -/
def Optimiser.optimize_gpu_usage (o : Optimiser) : Except PerfError Optimiser :=
  match listPop o.gpu_percentages with
  | .error e => .error e
  | .ok remaining =>
    match listMean remaining with
    | .error e => .error e
    | .ok gpu_util =>
      if gpu_util < 40 then
        .ok { o with gpu_percentages := remaining, gpu_ocr_processes := o.gpu_ocr_processes + 1 }
      else if 65 < gpu_util then
        .ok { o with gpu_percentages := remaining, gpu_ocr_processes := o.gpu_ocr_processes - 1 }
      else
        .ok { o with gpu_percentages := remaining }

/-- `PerformanceOptimiser._changes_made`: whether any of the four tuned
values differs from the one currently held by the configuration store. -/
def Optimiser.changes_made (o : Optimiser) (c : PerfConfig) : Bool :=
  o.cpu_ocr_processes != c.cpu_ocr_processes ||
  o.cpu_onnx_intra_threads != c.cpu_onnx_intra_threads ||
  o.gpu_ocr_processes != c.gpu_ocr_processes ||
  o.gpu_onnx_intra_threads != c.gpu_onnx_intra_threads

/-- `PerformanceOptimiser._save_perf_optimisations`: when nothing changed,
return without touching the store; otherwise hand all four values to
`Config.set_config`, which applies the schema-known ones and rewrites the
file (`gpu_onnx_intra_threads` is in no section of the `shared/config.py`
schema, so `set_config` drops it silently). -/
def Optimiser.save_perf_optimisations (o : Optimiser) (st : PerfStore) : PerfStore :=
  if o.changes_made st.vals then
    { vals := { cpu_ocr_processes := o.cpu_ocr_processes,
                cpu_onnx_intra_threads := o.cpu_onnx_intra_threads,
                gpu_ocr_processes := o.gpu_ocr_processes,
                gpu_onnx_intra_threads := st.vals.gpu_onnx_intra_threads },
      writes := st.writes + 1 }
  else st

/-- `PerformanceOptimiser.optimise_performance`: tune the device in use,
then persist the optimisations. -/
def Optimiser.optimise_performance (nc : Nat) (o : Optimiser) (st : PerfStore) :
    Except PerfError (Optimiser × PerfStore) :=
  match (if o.use_gpu then o.optimize_gpu_usage else o.optimize_cpu_usage nc) with
  | .error e => .error e
  | .ok o' => .ok (o', o'.save_perf_optimisations st)

/-- Whether a call returned normally (`.ok`) rather than raising. -/
def isOkE {ε α : Type} : Except ε α → Bool
  | .ok _ => true
  | .error _ => false

/-! ## Configuration store (`shared/config.py`, class `Config`)

The persisted `config.ini` and the in-memory `ConfigParser` state are both
modelled as ordered association lists of sections, each an ordered
association list of string key/value pairs.  Typed values are integers,
floats (embedded as rationals — conversion success/failure and the stored
decimal forms are exact at this precision), booleans and strings. -/

/-- The declared type of a schema key. -/
inductive CTy where
  | cint : CTy
  | cfloat : CTy
  | cbool : CTy
  | cstr : CTy
deriving DecidableEq

/-- A converted configuration value. -/
inductive CVal where
  | vint : Int → CVal
  | vfloat : Rat → CVal
  | vbool : Bool → CVal
  | vstr : String → CVal
deriving DecidableEq

/-- Exceptions caught by `config_loader` (`ParsingError` does not arise in
the model: the file is modelled already parsed into sections). -/
inductive CfgErr where
  | keyError : CfgErr
  | valueError : CfgErr
deriving DecidableEq

/-- Decimal value of a digit string. -/
def digitsVal (l : List Char) : Nat :=
  l.foldl (fun a c => a * 10 + (c.toNat - 48)) 0

/-- Nonempty and all decimal digits. -/
def isDigits (l : List Char) : Bool :=
  !l.isEmpty && l.all (·.isDigit)

/-- Python `int(str)` on the forms this program stores (an optional sign
followed by decimal digits; surrounding whitespace, underscores and other
bases do not occur in the stored files). `none` models `ValueError`. -/
def pyInt? (s : String) : Option Int :=
  match s.toList with
  | [] => none
  | c :: rest =>
    if c = '-' then (if isDigits rest then some (-(digitsVal rest : Int)) else none)
    else if c = '+' then (if isDigits rest then some ((digitsVal rest : Int)) else none)
    else if isDigits (c :: rest) then some ((digitsVal (c :: rest) : Int)) else none

/-- Unsigned decimal float body: `digits`, `digits.digits`, `digits.` or
`.digits`. -/
def decCore (l : List Char) : Option Rat :=
  let ip := l.takeWhile (· ≠ '.')
  match l.dropWhile (· ≠ '.') with
  | [] => if isDigits ip then some ((digitsVal ip : Nat) : Rat) else none
  | _ :: fp =>
    if ip.all (·.isDigit) && fp.all (·.isDigit) && (!ip.isEmpty || !fp.isEmpty) then
      some (((digitsVal ip : Nat) : Rat) + ((digitsVal fp : Nat) : Rat) / ((10 : Rat) ^ fp.length))
    else none

/-- Python `float(str)` on the decimal forms this program stores (no
exponent, `inf`/`nan` or whitespace forms occur in the stored files).
`none` models `ValueError`. -/
def pyFloat? (s : String) : Option Rat :=
  match s.toList with
  | [] => none
  | c :: rest =>
    if c = '-' then (decCore rest).map (fun q => -q)
    else if c = '+' then decCore rest
    else decCore (c :: rest)

/-- `Config._convert`: booleans by truthy-string membership (never fails),
ints and floats by parsing (`ValueError` on failure), strings verbatim. -/
def convert (value : String) : CTy → Except CfgErr CVal
  | .cbool => .ok (.vbool (value.toLower ∈ ["1", "true", "yes", "on"]))
  | .cint =>
    match pyInt? value with
    | some n => .ok (.vint n)
    | none => .error .valueError
  | .cfloat =>
    match pyFloat? value with
    | some q => .ok (.vfloat q)
    | none => .error .valueError
  | .cstr => .ok (.vstr value)

/-- The decimal digit character for `d < 10`. -/
def digitChar (d : Nat) : Char := Char.ofNat (48 + d)

/-- Decimal digit expansion, structurally recursive on a fuel bound (any
fuel above the number itself yields the digits; most significant first). -/
def natDigitsAux : Nat → Nat → List Char
  | 0, _ => []
  | fuel + 1, n =>
    if n < 10 then [digitChar n] else natDigitsAux fuel (n / 10) ++ [digitChar (n % 10)]

/-- Decimal digit list of a natural number (most significant first). -/
def natDigits (n : Nat) : List Char := natDigitsAux (n + 1) n

/-- Python `str` of a non-negative integer. -/
def pyNatStr (n : Nat) : String := String.mk (natDigits n)

/-- Python `str` of a configuration value, as `Config.set_config` stores
it.  (`str(True) = "True"`; for floats the exact shortest-round-trip
rendering of CPython is abstracted by the rational's canonical rendering —
none of the claims inspect a stored float string.) -/
def pyStr : CVal → String
  | .vint n => if n < 0 then "-" ++ pyNatStr n.natAbs else pyNatStr n.natAbs
  | .vfloat q => toString q
  | .vbool b => if b then "True" else "False"
  | .vstr s => s

/-- `Config.config_schema`: section → ordered keys with declared type and
the string form `str(default)` of the schema default, exactly as
`create_default_config_file` writes it (`str(0.50)` is `"0.5"` etc.).
`nc` models `physical_cores()`; `int(nc / 2.5)` is modelled as
`2 * nc / 5`, which is exact for machine core counts. -/
def config_schema (nc : Nat) : List (String × List (String × CTy × String)) :=
  [("Frame Extraction",
    [("frame_extraction_frequency", .cint, "2"),
     ("frame_extraction_batch_size", .cint, "250")]),
   ("Text Extraction",
    [("text_extraction_batch_size", .cint, "100"),
     ("text_drop_score", .cfloat, "0.6"),
     ("line_break", .cbool, "True")]),
   ("Subtitle Generator",
    [("text_similarity_threshold", .cfloat, "0.85"),
     ("min_consecutive_sub_dur_ms", .cfloat, "500.0"),
     ("max_consecutive_short_durs", .cint, "4"),
     ("min_sub_duration_ms", .cfloat, "120.0")]),
   ("Subtitle Detection",
    [("split_start", .cfloat, "0.25"),
     ("split_stop", .cfloat, "0.5"),
     ("no_of_frames", .cint, "200"),
     ("sub_area_x_rel_padding", .cfloat, "0.9"),
     ("sub_area_y_abs_padding", .cint, "25"),
     ("bbox_drop_score", .cfloat, "0.7"),
     ("use_search_area", .cbool, "True")]),
   ("Notification",
    [("win_notify_sound", .cstr, "Default"),
     ("win_notify_loop_sound", .cbool, "True")]),
   ("OCR Engine",
    [("ocr_rec_language", .cstr, "ch"),
     ("use_mobile_model", .cbool, "True"),
     ("use_text_ori", .cbool, "False")]),
   ("OCR Performance",
    [("cpu_ocr_processes", .cint, pyNatStr (nc / 2)),
     ("cpu_onnx_intra_threads", .cint, pyNatStr (max 4 (2 * nc / 5))),
     ("gpu_ocr_processes", .cint, pyNatStr (max 2 (nc / 3))),
     ("use_gpu", .cbool, "True"),
     ("auto_optimize_perf", .cbool, "True")]),
   ("Misc",
    [("use_dark_mode", .cbool, "False"),
     ("check_for_updates", .cbool, "True")])]

/-- Key/value items of one section. -/
abbrev KVs := List (String × String)

/-- Parser state / parsed file: ordered named sections. -/
abbrev Sections := List (String × KVs)

/-- First section with the given name. -/
def secFind : Sections → String → Option KVs
  | [], _ => none
  | (s2, kvs) :: rest, s => if s2 = s then some kvs else secFind rest s

/-- Value of a key within a section. -/
def kvGet : KVs → String → Option String
  | [], _ => none
  | (k2, v) :: rest, k => if k2 = k then some v else kvGet rest k

/-- Set a key in a section (`parser[section][key] = value`): replace the
first occurrence in place, else append. -/
def kvSet : KVs → String → String → KVs
  | [], k, v => [(k, v)]
  | (k2, v2) :: rest, k, v =>
    if k2 = k then (k, v) :: rest else (k2, v2) :: kvSet rest k v

/-- Assign a whole section (`parser[section] = items`): replace the first
section of that name in place, else append. -/
def setSectionWhole : Sections → String → KVs → Sections
  | [], s, kvs => [(s, kvs)]
  | (s2, kvs2) :: rest, s, kvs =>
    if s2 = s then (s, kvs) :: rest else (s2, kvs2) :: setSectionWhole rest s kvs

/-- Assign the sections of `L` into `acc` in order. -/
def applySections (acc : Sections) (L : Sections) : Sections :=
  L.foldl (fun a e => setSectionWhole a e.1 e.2) acc

/-- `ConfigParser.read`: merge the parsed file into the parser state,
keeping parser sections the file does not mention.  (The source merges
key-by-key inside a section; in every flow of this program the parser never
holds a key of a read section that the file lacks — the file is read either
into a fresh parser or right after being written from this parser — so the
merge is modelled as assigning the file's section items.) -/
def readMerge (parser file : Sections) : Sections :=
  applySections parser file

/-- The items written for one schema section: each key with `str(default)`. -/
def defaultKVs (data : List (String × CTy × String)) : KVs :=
  data.map (fun e => (e.1, e.2.2))

/-- `Config.create_default_config_file`: assign every schema section's
defaults into the parser, then write the parser out; the written file is
exactly the resulting parser state (which keeps any sections a previous
read had merged in). -/
def create_default_config_file (nc : Nat) (parser : Sections) : Sections :=
  applySections parser ((config_schema nc).map (fun e => (e.1, defaultKVs e.2)))

/-- Inner loop of `Config.load_config` for one section: for each schema
key, take the stored string (falling back to `str(default)` when the key
is missing) and convert it, failing fast on the first bad value. -/
def loadKeys (sec : KVs) : List (String × CTy × String) → Except CfgErr (List (String × CVal))
  | [] => .ok []
  | (k, ty, d) :: rest =>
    match convert ((kvGet sec k).getD d) ty with
    | .error e => .error e
    | .ok v =>
      match loadKeys sec rest with
      | .error e => .error e
      | .ok tl => .ok ((k, v) :: tl)

/-- `Config.load_config` over the schema sections: `self.config[section]`
raises `KeyError` when the parser lacks the section. -/
def loadSections (parser : Sections) :
    List (String × List (String × CTy × String)) → Except CfgErr (List (String × CVal))
  | [] => .ok []
  | (s, data) :: rest =>
    match secFind parser s with
    | none => .error .keyError
    | some sec =>
      match loadKeys sec data with
      | .error e => .error e
      | .ok a =>
        match loadSections parser rest with
        | .error e => .error e
        | .ok b => .ok (a ++ b)

/-- `Config.load_config`: the attributes set, in schema order. -/
def load_config (nc : Nat) (parser : Sections) : Except CfgErr (List (String × CVal)) :=
  loadSections parser (config_schema nc)

/-- In-memory `Config` object state plus the persisted file (`none` when
the file does not exist) and a count of file writes. -/
structure CfgState where
  parser : Sections
  file : Option Sections
  attrs : List (String × CVal)
  writes : Nat
deriving DecidableEq

/-- One pass of `config_loader`'s `try` body: create the default file when
missing (writing the parser, defaults assigned, to disk), read the file
into the parser, and run `load_config`.  Returns the state after the
attempt and whether it succeeded (an exception in `load_config` leaves the
previously set attributes in place; they are overwritten on the retry). -/
def load_attempt (nc : Nat) (st : CfgState) : CfgState × Bool :=
  let st1 :=
    match st.file with
    | none =>
      let p := create_default_config_file nc st.parser
      { st with parser := p, file := some p, writes := st.writes + 1 }
    | some _ => st
  let p2 := readMerge st1.parser (st1.file.getD [])
  match load_config nc p2 with
  | .ok attrs => ({ st1 with parser := p2, attrs := attrs }, true)
  | .error _ => ({ st1 with parser := p2 }, false)

/-- `Config.config_loader`: on `KeyError`/`ValueError` the config file is
deleted (`unlink`) and the loader recurses; the recursion regenerates the
file from schema defaults, whose load always succeeds (proved below), so
one retry models the recursion. -/
def config_loader (nc : Nat) (st : CfgState) : CfgState :=
  match load_attempt nc st with
  | (st1, true) => st1
  | (st1, false) => (load_attempt nc { st1 with file := none }).1

/-- The attribute values a pure default load produces. -/
def defaultVal (ty : CTy) (d : String) : CVal :=
  match convert d ty with
  | .ok v => v
  | .error _ => .vstr d

/-- The attribute list a pure default load produces, in schema order. -/
def default_attrs (nc : Nat) : List (String × CVal) :=
  (config_schema nc).flatMap (fun e => e.2.map (fun kv => (kv.1, defaultVal kv.2.1 kv.2.2)))

/-- First schema section containing the given key (`Config.set_config`'s
inner loop with `break`). -/
def findSection : List (String × List (String × CTy × String)) → String → Option String
  | [], _ => none
  | (s, data) :: rest, k =>
    if data.any (fun e => e.1 == k) then some s else findSection rest k

/-- In-memory attribute assignment (`setattr`). -/
def attrSet : List (String × CVal) → String → CVal → List (String × CVal)
  | [], k, v => [(k, v)]
  | (k2, v2) :: rest, k, v =>
    if k2 = k then (k, v) :: rest else (k2, v2) :: attrSet rest k v

/-- In-memory attribute lookup (`getattr`). -/
def attrGet : List (String × CVal) → String → Option CVal
  | [], _ => none
  | (k2, v) :: rest, k => if k2 = k then some v else attrGet rest k

/-- One `key, val` iteration of `Config.set_config`: a key in no schema
section is skipped entirely; a schema key is set as an attribute and its
`str` form stored into its section (`self.config[section]` raises
`KeyError` if the parser lacks the section). -/
def setOne (nc : Nat) (st : CfgState) (k : String) (v : CVal) : Except CfgErr CfgState :=
  match findSection (config_schema nc) k with
  | none => .ok st
  | some s =>
    match secFind st.parser s with
    | none => .error .keyError
    | some kvs =>
      .ok { st with parser := setSectionWhole st.parser s (kvSet kvs k (pyStr v)),
                    attrs := attrSet st.attrs k v }

/-- `Config.set_config`: apply every keyword argument in order, then
rewrite the config file from the parser. -/
def set_config (nc : Nat) (kwargs : List (String × CVal)) (st : CfgState) :
    Except CfgErr CfgState :=
  match kwargs with
  | [] => .ok { st with file := some st.parser, writes := st.writes + 1 }
  | (k, v) :: rest =>
    match setOne nc st k v with
    | .error e => .error e
    | .ok st2 => set_config nc rest st2

/-- Last section with the given name (proof auxiliary: the section an
`applySections` sequence leaves in force). -/
def secFindLast : Sections → String → Option KVs
  | [], _ => none
  | (s2, kvs) :: rest, s =>
    match secFindLast rest s with
    | some r => some r
    | none => if s2 = s then some kvs else none

/-- Section names are pairwise distinct (proof auxiliary; an invariant of
every parser state arising from reads of parsed files). -/
def NodupNames (m : Sections) : Prop := (m.map Prod.fst).Nodup

end VidSubX

namespace VidSubX

/-! ### Helper lemmas about the run loop -/

theorem fttLoop_interrupt_aux (n : Nat) (flag : Nat → Bool) :
    ∀ (l : List Outcome) (i s : Nat), i < l.length →
      (∀ j, j ≤ i → l.get? j = some .ok) →
      (∀ j, j < i → flag (s + j) = false) →
      flag (s + i) = true →
      (fttLoop n flag l s).result = .interrupted ∧
      (fttLoop n flag l s).inspected = i + 1 ∧
      (fttLoop n flag l s).cancelSignalled = true := by
  intro l
  induction l with
  | nil => intro i s hi _ _ _; simp at hi
  | cons o rest ih =>
    intro i s hi hok hfl hset
    have h0 : o = .ok := by simpa using hok 0 (Nat.zero_le _)
    subst h0
    cases i with
    | zero =>
      have hs : flag s = true := by simpa using hset
      simp [fttLoop, hs]
    | succ i' =>
      have hs : flag s = false := by simpa using hfl 0 (Nat.succ_pos _)
      have hrec := ih i' (s + 1) (by simpa using Nat.lt_of_succ_lt_succ hi)
        (fun j hj => by simpa using hok (j + 1) (Nat.succ_le_succ hj))
        (fun j hj => by
          have h := hfl (j + 1) (Nat.succ_lt_succ hj)
          have harith : s + (j + 1) = s + 1 + j := by omega
          rwa [harith] at h)
        (by
          have harith : s + (i' + 1) = s + 1 + i' := by omega
          rwa [harith] at hset)
      simp only [fttLoop, hs, if_false, Bool.false_eq_true]
      exact ⟨hrec.1, by rw [hrec.2.1], hrec.2.2⟩

theorem fttLoop_fail_aux (n : Nat) (flag : Nat → Bool) :
    ∀ (l : List Outcome) (i s : Nat) (e : String), l.get? i = some (.err e) →
      (∀ j, j < i → l.get? j = some .ok) →
      (∀ j, j < i → flag (s + j) = false) →
      (fttLoop n flag l s).result = .failed e ∧
      (fttLoop n flag l s).inspected = i + 1 := by
  intro l
  induction l with
  | nil => intro i s e he _ _; simp at he
  | cons o rest ih =>
    intro i s e he hok hfl
    cases i with
    | zero =>
      have h0 : o = .err e := by simpa using he
      subst h0
      simp [fttLoop]
    | succ i' =>
      have h0 : o = .ok := by simpa using hok 0 (Nat.succ_pos _)
      subst h0
      have hs : flag s = false := by simpa using hfl 0 (Nat.succ_pos _)
      have hrec := ih i' (s + 1) e (by simpa using he)
        (fun j hj => by simpa using hok (j + 1) (Nat.succ_lt_succ hj))
        (fun j hj => by
          have h := hfl (j + 1) (Nat.succ_lt_succ hj)
          have harith : s + (j + 1) = s + 1 + j := by omega
          rwa [harith] at h)
      simp only [fttLoop, hs, if_false, Bool.false_eq_true]
      exact ⟨hrec.1, by rw [hrec.2]⟩

theorem fttLoop_reports_aux (n : Nat) (flag : Nat → Bool) (hflag : ∀ j, flag j = false) :
    ∀ (l : List Outcome) (s : Nat), (∀ j, j < l.length → l.get? j = some .ok) →
      (fttLoop n flag l s).reports =
        if n - 1 = 0 then [] else (List.range l.length).map (fun k => (s + k, n - 1)) := by
  intro l
  induction l with
  | nil => intro s _; simp [fttLoop]
  | cons o rest ih =>
    intro s hok
    have h0 : o = .ok := by simpa using hok 0 (by simp)
    subst h0
    have hrec := ih (s + 1) (fun j hj => by
      simpa using hok (j + 1) (by simpa using Nat.succ_lt_succ hj))
    by_cases hn : n - 1 = 0
    · simp [fttLoop, hflag s, print_progress, hn, hrec]
    · have hstep : (fttLoop n flag (.ok :: rest) s).reports
          = (print_progress s (n - 1)).toList ++ (fttLoop n flag rest (s + 1)).reports := by
        simp [fttLoop, hflag s]
      have hmap : (List.range (rest.length + 1)).map (fun k => (s + k, n - 1))
          = (s, n - 1) :: (List.range rest.length).map (fun k => (s + 1 + k, n - 1)) := by
        rw [List.range_succ_eq_map, List.map_cons, List.map_map]
        refine congrArg (List.cons _) ?_
        refine List.map_congr_left (fun a _ => ?_)
        simp only [Function.comp_apply, Nat.succ_eq_add_one]
        exact congrArg (fun t => (t, n - 1)) (by omega)
      rw [hstep, hrec]
      simp only [print_progress, if_neg hn, Option.toList_some, List.singleton_append,
        List.length_cons]
      rw [hmap]

/-- C5: for every non-negative millisecond offset `ms`, `timecode ms` is the
zero-padded string `HH:MM:SS,mmm` whose fields are the floored hour, minute
and second counts and the millisecond remainder; the hour field is
`ms / 3600000` itself, not wrapped modulo 24 (witnessed by the 25-hour
offset rendering as `"25:00:00,000"`). -/
theorem timecode_fields (ms : Nat) :
    timecode ms =
      zpad 2 (ms / 3600000) ++ ":" ++ zpad 2 (ms / 60000 % 60) ++ ":" ++
        zpad 2 (ms / 1000 % 60) ++ "," ++ zpad 3 (ms % 1000) ∧
    timecode (25 * 3600000) = "25:00:00,000" := by
  constructor
  · show zpad 2 (ms / 1000 / 3600) ++ ":" ++ zpad 2 (ms / 1000 / 60 % 60) ++ ":" ++
        zpad 2 (ms / 1000 % 60) ++ "," ++ zpad 3 (ms % 1000) = _
    rw [Nat.div_div_eq_div_mul, Nat.div_div_eq_div_mul]
  · rfl

/-- C1: if after `i + 1` completed batches (all successful) the cancellation
flag `Process.interrupt_process` is observed set, `frames_to_text` calls
`cancel_futures`, which cancels every not-yet-started future, and returns
early: exactly `i + 1` of the batch futures ever have their results
processed. -/
theorem frames_to_text_cancel_early
    (flag : Nat → Bool) (results : List Outcome) (i : Nat)
    (hi : i < results.length)
    (hok : ∀ j, j ≤ i → results.get? j = some .ok)
    (hfl : ∀ j, j < i → flag j = false)
    (hset : flag i = true) :
    (frames_to_text false flag results).result = .interrupted ∧
    (frames_to_text false flag results).inspected = i + 1 ∧
    (frames_to_text false flag results).cancelSignalled = true ∧
    ∀ (futures : List FutureState) (k : Nat),
      futures.get? k = some .pending →
      (cancel_futures futures).get? k = some .cancelledF := by
  have h := fttLoop_interrupt_aux results.length flag results i 0 hi hok
    (fun j hj => by simpa using hfl j hj) (by simpa using hset)
  refine ⟨h.1, h.2.1, h.2.2, ?_⟩
  intro futures k hk
  show (futures.map futureCancel).get? k = some .cancelledF
  rw [List.get?_eq_getElem?, List.getElem?_map, ← List.get?_eq_getElem?, hk]
  rfl

/-- Witness for C1: a three-batch run whose flag is first observed set at
iteration 1 stops after inspecting two batches and signals cancellation; a
concrete pending future is cancelled by `cancel_futures`. -/
theorem frames_to_text_cancel_early_witness :
    (frames_to_text false (fun j => j == 1) [.ok, .ok, .ok]).result = .interrupted ∧
    (frames_to_text false (fun j => j == 1) [.ok, .ok, .ok]).inspected = 2 ∧
    (frames_to_text false (fun j => j == 1) [.ok, .ok, .ok]).cancelSignalled = true ∧
    (cancel_futures [.finished, .running, .pending]).get? 2 = some .cancelledF := by
  have h := frames_to_text_cancel_early (fun j => j == 1) [.ok, .ok, .ok] 1
    (by decide) (by decide) (by decide) (by decide)
  exact ⟨h.1, h.2.1, h.2.2.1, h.2.2.2 [.finished, .running, .pending] 2 (by decide)⟩

/-- C2: if the batch at completion position `i` raised an exception inside
its worker and every earlier-completing batch succeeded without an
interrupt, `frames_to_text` re-raises that exception to its caller the
moment the batch's result is inspected: the run ends `failed` with that
exception after inspecting exactly `i + 1` results, aborting the rest of
the run. -/
theorem frames_to_text_failfast
    (flag : Nat → Bool) (results : List Outcome) (i : Nat) (e : String)
    (herr : results.get? i = some (.err e))
    (hok : ∀ j, j < i → results.get? j = some .ok)
    (hfl : ∀ j, j < i → flag j = false) :
    (frames_to_text false flag results).result = .failed e ∧
    (frames_to_text false flag results).inspected = i + 1 := by
  have h := fttLoop_fail_aux results.length flag results i 0 e herr hok
    (fun j hj => by simpa using hfl j hj)
  exact ⟨h.1, h.2⟩

/-- Witness for C2: a run whose second-completing batch raised `"boom"`
ends failed with `"boom"` after inspecting two results. -/
theorem frames_to_text_failfast_witness :
    (frames_to_text false (fun _ => false) [.ok, .err "boom", .ok]).result = .failed "boom" ∧
    (frames_to_text false (fun _ => false) [.ok, .err "boom", .ok]).inspected = 2 :=
  frames_to_text_failfast (fun _ => false) [.ok, .err "boom", .ok] 1 "boom"
    (by decide) (by decide) (by decide)

/-- Each artifact written by `extract_text`, by position in the batch. -/
theorem extract_text_get_aux (predict : String → List String) (out : String) :
    ∀ (files : List String) (sep : String) (k : Nat) (hk : k < files.length),
      (extract_text predict out files sep).get? k =
        some { path := out ++ "/" ++ stem (files.get ⟨k, hk⟩) ++ ".txt",
               encoding := "utf-8",
               content := String.intercalate sep (predict (files.get ⟨k, hk⟩)) } := by
  intro files
  induction files with
  | nil => intro sep k hk; simp at hk
  | cons f rest ih =>
    intro sep k hk
    cases k with
    | zero => rfl
    | succ k' => exact ih sep k' (Nat.lt_of_succ_lt_succ hk)

/-- C6: an `extract_text` call over a batch of frame image files writes
exactly one text artifact per file — the `k`-th artifact is for the `k`-th
file, named by the source image's stem plus `.txt` inside the text-output
directory, UTF-8 encoded, with the recognized lines joined by a newline
when the `line_break` configuration flag is true and by a single space
otherwise. -/
theorem extract_text_one_artifact_per_frame
    (predict : String → List String) (text_output : String) (files : List String)
    (line_break : Bool) :
    (extract_text predict text_output files (line_sep line_break)).length = files.length ∧
    ∀ (k : Nat) (hk : k < files.length),
      (extract_text predict text_output files (line_sep line_break)).get? k =
        some { path := text_output ++ "/" ++ stem (files.get ⟨k, hk⟩) ++ ".txt",
               encoding := "utf-8",
               content := String.intercalate (if line_break then "\n" else " ")
                 (predict (files.get ⟨k, hk⟩)) } := by
  constructor
  · induction files with
    | nil => rfl
    | cons f rest ih => simpa [extract_text] using ih
  · exact fun k hk => extract_text_get_aux predict text_output files (line_sep line_break) k hk

/-- Witness for C6: a one-file batch with two recognized lines and
`line_break = true` produces the single artifact `out/0001.txt` containing
`"a\nb"`. -/
theorem extract_text_one_artifact_per_frame_witness :
    (extract_text (fun _ => ["a", "b"]) "out" ["0001.jpg"] (line_sep true)).length = 1 ∧
    (extract_text (fun _ => ["a", "b"]) "out" ["0001.jpg"] (line_sep true)).get? 0 =
      some { path := "out/0001.txt", encoding := "utf-8", content := "a\nb" } := by
  have h := extract_text_one_artifact_per_frame (fun _ => ["a", "b"]) "out" ["0001.jpg"] true
  refine ⟨h.1, ?_⟩
  rw [h.2 0 (by decide)]
  decide

/-- C8 counterexample: a one-batch run that completes normally emits no
progress report at all — `print_progress` is called with `total = 0`
(`no_batches - 1`) and returns without reporting — contradicting the claim
that progress is reported exactly once after each completed batch, as the
pair `(completed batches, total batches)`, from the first batch to the
last. -/
theorem frames_to_text_progress_cex :
    (frames_to_text false (fun _ => false) [Outcome.ok]).result = .completed ∧
    (frames_to_text false (fun _ => false) [Outcome.ok]).reports = [] ∧
    (frames_to_text false (fun _ => false) [Outcome.ok]).reports ≠ [(1, 1)] := by
  decide

/-- C8 (amended): in an uninterrupted, fully successful run over `n`
batches, the `k`-th completed batch (`k = 0,…,n-1`) is followed by a
`print_progress` call with the pair `(k, n - 1)`; when `n ≥ 2` each call
emits exactly one report, and when `n < 2` no report is emitted at all
(`print_progress` returns immediately on `total = 0`). -/
theorem frames_to_text_progress_pairs
    (flag : Nat → Bool) (results : List Outcome)
    (hflag : ∀ j, flag j = false)
    (hok : ∀ j, j < results.length → results.get? j = some .ok) :
    (frames_to_text false flag results).reports =
      if results.length < 2 then []
      else (List.range results.length).map (fun k => (k, results.length - 1)) := by
  have h := fttLoop_reports_aux results.length flag hflag results 0 hok
  rw [frames_to_text, if_neg (by simp), h]
  have hiff : results.length - 1 = 0 ↔ results.length < 2 := by omega
  by_cases h2 : results.length < 2
  · rw [if_pos (hiff.mpr h2), if_pos h2]
  · rw [if_neg (fun hc => h2 (hiff.mp hc)), if_neg h2]
    exact List.map_congr_left (fun a _ => by simp)

/-- Witness for C8 (amended): a two-batch run reports `(0, 1)` then
`(1, 1)`. -/
theorem frames_to_text_progress_pairs_witness :
    (frames_to_text false (fun _ => false) [.ok, .ok]).reports = [(0, 1), (1, 1)] := by
  have h := frames_to_text_progress_pairs (fun _ => false) [.ok, .ok]
    (fun _ => rfl) (by decide)
  simpa using h

/-! ### Helper lemmas about the performance optimiser -/

theorem recordAll_spec : ∀ (us : List Rat) (o : Optimiser),
    o.recordAll us =
      { o with cpu_percentages := o.cpu_percentages ++ (if o.use_gpu then [] else us),
               gpu_percentages := o.gpu_percentages ++ (if o.use_gpu then us else []) } := by
  intro us
  induction us with
  | nil => intro o; simp [Optimiser.recordAll]
  | cons u us ih =>
    intro o
    show (o.record_perf u).recordAll us = _
    rw [ih]
    cases hg : o.use_gpu <;> simp [Optimiser.record_perf, hg]

theorem optimize_cpu_usage_ok (nc : Nat) (o o' : Optimiser)
    (h : o.optimize_cpu_usage nc = .ok o') :
    o'.cpu_onnx_intra_threads = o.cpu_onnx_intra_threads ∧
    o'.gpu_onnx_intra_threads = o.gpu_onnx_intra_threads ∧
    o'.gpu_ocr_processes = o.gpu_ocr_processes ∧
    o'.use_gpu = o.use_gpu := by
  rw [Optimiser.optimize_cpu_usage] at h
  split at h
  · exact absurd h (by simp)
  split at h
  · exact absurd h (by simp)
  split at h
  · injection h with h; subst h; exact ⟨rfl, rfl, rfl, rfl⟩
  split at h <;> (injection h with h; subst h; exact ⟨rfl, rfl, rfl, rfl⟩)

theorem optimize_gpu_usage_ok (o o' : Optimiser)
    (h : o.optimize_gpu_usage = .ok o') :
    o'.cpu_onnx_intra_threads = o.cpu_onnx_intra_threads ∧
    o'.gpu_onnx_intra_threads = o.gpu_onnx_intra_threads ∧
    o'.cpu_ocr_processes = o.cpu_ocr_processes ∧
    o'.use_gpu = o.use_gpu := by
  rw [Optimiser.optimize_gpu_usage] at h
  split at h
  · exact absurd h (by simp)
  split at h
  · exact absurd h (by simp)
  split at h
  · injection h with h; subst h; exact ⟨rfl, rfl, rfl, rfl⟩
  split at h <;> (injection h with h; subst h; exact ⟨rfl, rfl, rfl, rfl⟩)

theorem optimize_cpu_usage_sample_count (nc : Nat) (o : Optimiser) :
    (o.cpu_percentages.length = 0 → o.optimize_cpu_usage nc = .error .indexError) ∧
    (o.cpu_percentages.length = 1 → o.optimize_cpu_usage nc = .error .zeroDivisionError) ∧
    (2 ≤ o.cpu_percentages.length → isOkE (o.optimize_cpu_usage nc) = true) := by
  refine ⟨fun h0 => ?_, fun h1 => ?_, fun h2 => ?_⟩
  · have he : o.cpu_percentages = [] := List.length_eq_zero.mp h0
    simp [Optimiser.optimize_cpu_usage, listPop, he]
  · have hne : o.cpu_percentages ≠ [] := by
      intro hc; rw [hc] at h1; simp at h1
    have hdrop : o.cpu_percentages.dropLast = [] := by
      apply List.length_eq_zero.mp
      rw [List.length_dropLast, h1]
    simp [Optimiser.optimize_cpu_usage, listPop, listMean, hne, hdrop]
  · have hne : o.cpu_percentages.isEmpty = false := by
      rw [List.isEmpty_eq_false]
      intro hc; rw [hc] at h2; simp at h2
    have hne2 : o.cpu_percentages.dropLast.isEmpty = false := by
      rw [List.isEmpty_eq_false]
      intro hc
      have := congrArg List.length hc
      rw [List.length_dropLast] at this
      simp at this
      omega
    simp only [Optimiser.optimize_cpu_usage, listPop, listMean, hne, hne2,
      Bool.false_eq_true, if_false]
    split <;> [skip; split] <;> rfl

theorem optimize_gpu_usage_sample_count (o : Optimiser) :
    (o.gpu_percentages.length = 0 → o.optimize_gpu_usage = .error .indexError) ∧
    (o.gpu_percentages.length = 1 → o.optimize_gpu_usage = .error .zeroDivisionError) ∧
    (2 ≤ o.gpu_percentages.length → isOkE o.optimize_gpu_usage = true) := by
  refine ⟨fun h0 => ?_, fun h1 => ?_, fun h2 => ?_⟩
  · have he : o.gpu_percentages = [] := List.length_eq_zero.mp h0
    simp [Optimiser.optimize_gpu_usage, listPop, he]
  · have hne : o.gpu_percentages ≠ [] := by
      intro hc; rw [hc] at h1; simp at h1
    have hdrop : o.gpu_percentages.dropLast = [] := by
      apply List.length_eq_zero.mp
      rw [List.length_dropLast, h1]
    simp [Optimiser.optimize_gpu_usage, listPop, listMean, hne, hdrop]
  · have hne : o.gpu_percentages.isEmpty = false := by
      rw [List.isEmpty_eq_false]
      intro hc; rw [hc] at h2; simp at h2
    have hne2 : o.gpu_percentages.dropLast.isEmpty = false := by
      rw [List.isEmpty_eq_false]
      intro hc
      have := congrArg List.length hc
      rw [List.length_dropLast] at this
      simp at this
      omega
    simp only [Optimiser.optimize_gpu_usage, listPop, listMean, hne, hne2,
      Bool.false_eq_true, if_false]
    split <;> [skip; split] <;> rfl

theorem optimise_performance_cpu_branch (nc : Nat) (o : Optimiser) (st : PerfStore)
    (hg : o.use_gpu = false) :
    o.optimise_performance nc st =
      match o.optimize_cpu_usage nc with
      | .error e => .error e
      | .ok o2 => .ok (o2, o2.save_perf_optimisations st) := by
  rw [Optimiser.optimise_performance, hg]
  rfl

theorem optimise_performance_gpu_branch (nc : Nat) (o : Optimiser) (st : PerfStore)
    (hg : o.use_gpu = true) :
    o.optimise_performance nc st =
      match o.optimize_gpu_usage with
      | .error e => .error e
      | .ok o2 => .ok (o2, o2.save_perf_optimisations st) := by
  rw [Optimiser.optimise_performance, hg]
  rfl

/-- C9: running `optimise_performance` on an optimiser that has seen fewer
than two `record_perf` calls raises: with zero recorded samples the
`list.pop()` of the sample list raises `IndexError`, and with exactly one
sample the mean of the remaining (empty) list is a division by zero; with
at least two samples the call returns normally, so auto-tuning is safe only
after at least two completed batches. -/
theorem optimise_performance_needs_two_samples
    (c : PerfConfig) (use_gpu : Bool) (nc : Nat) (st : PerfStore) (usages : List Rat) :
    (usages.length = 0 →
      ((Optimiser.init c use_gpu).recordAll usages).optimise_performance nc st =
        .error .indexError) ∧
    (usages.length = 1 →
      ((Optimiser.init c use_gpu).recordAll usages).optimise_performance nc st =
        .error .zeroDivisionError) ∧
    (2 ≤ usages.length →
      isOkE (((Optimiser.init c use_gpu).recordAll usages).optimise_performance nc st) =
        true) := by
  have hval := recordAll_spec usages (Optimiser.init c use_gpu)
  cases use_gpu with
  | false =>
    have hg : ((Optimiser.init c false).recordAll usages).use_gpu = false := by
      rw [hval]; rfl
    have hcpu : ((Optimiser.init c false).recordAll usages).cpu_percentages = usages := by
      rw [hval]; simp [Optimiser.init]
    have hc := optimize_cpu_usage_sample_count nc ((Optimiser.init c false).recordAll usages)
    refine ⟨fun h0 => ?_, fun h1 => ?_, fun h2 => ?_⟩
    · rw [optimise_performance_cpu_branch _ _ st hg, hc.1 (by rw [hcpu]; exact h0)]
    · rw [optimise_performance_cpu_branch _ _ st hg, hc.2.1 (by rw [hcpu]; exact h1)]
    · have hok := hc.2.2 (by rw [hcpu]; exact h2)
      rcases hres : ((Optimiser.init c false).recordAll usages).optimize_cpu_usage nc with e | o2
      · rw [hres] at hok; simp [isOkE] at hok
      · rw [optimise_performance_cpu_branch _ _ st hg, hres]; rfl
  | true =>
    have hg : ((Optimiser.init c true).recordAll usages).use_gpu = true := by
      rw [hval]; rfl
    have hgpu : ((Optimiser.init c true).recordAll usages).gpu_percentages = usages := by
      rw [hval]; simp [Optimiser.init]
    have hc := optimize_gpu_usage_sample_count ((Optimiser.init c true).recordAll usages)
    refine ⟨fun h0 => ?_, fun h1 => ?_, fun h2 => ?_⟩
    · rw [optimise_performance_gpu_branch nc _ st hg, hc.1 (by rw [hgpu]; exact h0)]
    · rw [optimise_performance_gpu_branch nc _ st hg, hc.2.1 (by rw [hgpu]; exact h1)]
    · have hok := hc.2.2 (by rw [hgpu]; exact h2)
      rcases hres : ((Optimiser.init c true).recordAll usages).optimize_gpu_usage with e | o2
      · rw [hres] at hok; simp [isOkE] at hok
      · rw [optimise_performance_gpu_branch nc _ st hg, hres]; rfl

/-- C3 counterexample: the decrement of the worker count is *not* bounded
below by 1.  A CPU-bound optimiser constructed with `cpu_ocr_processes = 1`
that saw the samples `[100, 100, 0]` (the last one is discarded, the mean
of the rest is 100, above the high threshold 95) tunes the worker count
down to `0`, contradicting the claimed lower bound of 1. -/
theorem optimiser_no_lower_bound_cex :
    (((Optimiser.init ⟨1, 4, 2, 4⟩ false).recordAll [100, 100, 0]).optimise_performance 8
        ⟨⟨1, 4, 2, 4⟩, 0⟩).map (fun p => p.1.cpu_ocr_processes) = .ok 0 := by
  norm_num [Optimiser.recordAll, Optimiser.record_perf, Optimiser.init,
    Optimiser.optimise_performance, Optimiser.optimize_cpu_usage, listPop, listMean, ratMean,
    Optimiser.save_perf_optimisations, Optimiser.changes_made, Except.map]

/-- C3 (amended): `optimise_performance` discards the most recent
utilization sample and compares the mean of the rest against two
thresholds (80/95 on CPU, 40/65 on GPU): below the low threshold the
worker count for the device in use is increased by exactly one (on CPU
only while strictly below the physical core count; at or above it the
count is left unchanged); above the high threshold it is decreased by
exactly one with **no** lower bound; between the thresholds it is
unchanged.  The other device's worker count is never touched. -/
theorem optimise_performance_adjustment (nc : Nat) (o : Optimiser) (st : PerfStore) :
    (o.use_gpu = false → 2 ≤ o.cpu_percentages.length →
      ((ratMean o.cpu_percentages.dropLast < 80 → o.cpu_ocr_processes < (nc : Int) →
        (o.optimise_performance nc st).map (fun p => p.1.cpu_ocr_processes) =
          .ok (o.cpu_ocr_processes + 1)) ∧
       (ratMean o.cpu_percentages.dropLast < 80 → ¬ o.cpu_ocr_processes < (nc : Int) →
        (o.optimise_performance nc st).map (fun p => p.1.cpu_ocr_processes) =
          .ok o.cpu_ocr_processes) ∧
       (95 < ratMean o.cpu_percentages.dropLast →
        (o.optimise_performance nc st).map (fun p => p.1.cpu_ocr_processes) =
          .ok (o.cpu_ocr_processes - 1)) ∧
       (80 ≤ ratMean o.cpu_percentages.dropLast → ratMean o.cpu_percentages.dropLast ≤ 95 →
        (o.optimise_performance nc st).map (fun p => p.1.cpu_ocr_processes) =
          .ok o.cpu_ocr_processes) ∧
       (o.optimise_performance nc st).map (fun p => p.1.gpu_ocr_processes) =
         .ok o.gpu_ocr_processes)) ∧
    (o.use_gpu = true → 2 ≤ o.gpu_percentages.length →
      ((ratMean o.gpu_percentages.dropLast < 40 →
        (o.optimise_performance nc st).map (fun p => p.1.gpu_ocr_processes) =
          .ok (o.gpu_ocr_processes + 1)) ∧
       (65 < ratMean o.gpu_percentages.dropLast →
        (o.optimise_performance nc st).map (fun p => p.1.gpu_ocr_processes) =
          .ok (o.gpu_ocr_processes - 1)) ∧
       (40 ≤ ratMean o.gpu_percentages.dropLast → ratMean o.gpu_percentages.dropLast ≤ 65 →
        (o.optimise_performance nc st).map (fun p => p.1.gpu_ocr_processes) =
          .ok o.gpu_ocr_processes) ∧
       (o.optimise_performance nc st).map (fun p => p.1.cpu_ocr_processes) =
         .ok o.cpu_ocr_processes)) := by
  constructor
  · intro hg h2
    have hne : o.cpu_percentages.isEmpty = false := by
      rw [List.isEmpty_eq_false]
      intro hc; rw [hc] at h2; simp at h2
    have hne2 : o.cpu_percentages.dropLast.isEmpty = false := by
      rw [List.isEmpty_eq_false]
      intro hc
      have := congrArg List.length hc
      rw [List.length_dropLast] at this
      simp at this
      omega
    rw [optimise_performance_cpu_branch _ _ st hg]
    simp only [Optimiser.optimize_cpu_usage, listPop, listMean, hne, hne2,
      Bool.false_eq_true, if_false]
    refine ⟨fun hm hc => ?_, fun hm hc => ?_, fun hm => ?_, fun hm1 hm2 => ?_, ?_⟩
    · rw [if_pos ⟨hm, hc⟩]; rfl
    · rw [if_neg (fun hand => hc hand.2), if_neg (by intro h95; linarith)]; rfl
    · rw [if_neg (fun hand => by linarith [hand.1]), if_pos hm]; rfl
    · rw [if_neg (fun hand => by linarith [hand.1]), if_neg (by intro h95; linarith)]; rfl
    · split
      · rename_i e heq
        split at heq <;> [skip; split at heq] <;> exact absurd heq (by simp)
      · rename_i o2 heq
        split at heq <;> [skip; split at heq] <;>
          (injection heq with heq; subst heq; rfl)
  · intro hg h2
    have hne : o.gpu_percentages.isEmpty = false := by
      rw [List.isEmpty_eq_false]
      intro hc; rw [hc] at h2; simp at h2
    have hne2 : o.gpu_percentages.dropLast.isEmpty = false := by
      rw [List.isEmpty_eq_false]
      intro hc
      have := congrArg List.length hc
      rw [List.length_dropLast] at this
      simp at this
      omega
    rw [optimise_performance_gpu_branch nc _ st hg]
    simp only [Optimiser.optimize_gpu_usage, listPop, listMean, hne, hne2,
      Bool.false_eq_true, if_false]
    refine ⟨fun hm => ?_, fun hm => ?_, fun hm1 hm2 => ?_, ?_⟩
    · rw [if_pos hm]; rfl
    · rw [if_neg (by intro h40; linarith), if_pos hm]; rfl
    · rw [if_neg (by intro h40; linarith), if_neg (by intro h65; linarith)]; rfl
    · split
      · rename_i e heq
        split at heq <;> [skip; split at heq] <;> exact absurd heq (by simp)
      · rename_i o2 heq
        split at heq <;> [skip; split at heq] <;>
          (injection heq with heq; subst heq; rfl)

/-- Witness for C3 (amended): a CPU-bound optimiser with worker count 2
whose retained samples average 90 (between the thresholds) keeps the
worker count at 2. -/
theorem optimise_performance_adjustment_witness :
    ((⟨2, 4, 2, 4, false, [90, 90, 50], []⟩ : Optimiser).optimise_performance 8
        ⟨⟨2, 4, 2, 4⟩, 0⟩).map (fun p => p.1.cpu_ocr_processes) = .ok 2 := by
  have h := ((optimise_performance_adjustment 8 ⟨2, 4, 2, 4, false, [90, 90, 50], []⟩
      ⟨⟨2, 4, 2, 4⟩, 0⟩).1 rfl (by norm_num)).2.2.2.1
  exact h (by norm_num [ratMean]) (by norm_num [ratMean])

theorem optimise_fields (nc : Nat) (o o2 : Optimiser) (st st2 : PerfStore)
    (h : o.optimise_performance nc st = .ok (o2, st2)) :
    o2.cpu_onnx_intra_threads = o.cpu_onnx_intra_threads ∧
    o2.gpu_onnx_intra_threads = o.gpu_onnx_intra_threads ∧
    st2 = o2.save_perf_optimisations st := by
  rw [Optimiser.optimise_performance] at h
  split at h
  · exact absurd h (by simp)
  · rename_i o3 heq
    injection h with h
    rw [Prod.mk.injEq] at h
    obtain ⟨h1, h2⟩ := h
    subst h1
    subst h2
    refine ⟨?_, ?_, rfl⟩ <;> split at heq
    · exact (optimize_gpu_usage_ok o o3 heq).1
    · exact (optimize_cpu_usage_ok nc o o3 heq).1
    · exact (optimize_gpu_usage_ok o o3 heq).2.1
    · exact (optimize_cpu_usage_ok nc o o3 heq).2.1

/-- C7: in a run where the optimiser is constructed from the current
configuration store, records some samples and then tunes, the tuned values
are persisted via `Config.set_config` if and only if at least one tuned
worker-count value differs from the value held by the store at
construction; when neither worker count differs, the store (values and
file alike) is left completely unchanged. -/
theorem save_iff_worker_count_changed
    (c : PerfConfig) (use_gpu : Bool) (nc w : Nat) (usages : List Rat)
    (o' : Optimiser) (st' : PerfStore)
    (hrun : ((Optimiser.init c use_gpu).recordAll usages).optimise_performance nc ⟨c, w⟩ =
      .ok (o', st')) :
    ((o'.cpu_ocr_processes ≠ c.cpu_ocr_processes ∨ o'.gpu_ocr_processes ≠ c.gpu_ocr_processes) →
      st' = ⟨⟨o'.cpu_ocr_processes, c.cpu_onnx_intra_threads, o'.gpu_ocr_processes,
              c.gpu_onnx_intra_threads⟩, w + 1⟩) ∧
    ((o'.cpu_ocr_processes = c.cpu_ocr_processes ∧ o'.gpu_ocr_processes = c.gpu_ocr_processes) →
      st' = ⟨c, w⟩) := by
  obtain ⟨honnx1, honnx2, hsave⟩ := optimise_fields nc _ o' ⟨c, w⟩ st' hrun
  have hval := recordAll_spec usages (Optimiser.init c use_gpu)
  have hc1 : ((Optimiser.init c use_gpu).recordAll usages).cpu_onnx_intra_threads =
      c.cpu_onnx_intra_threads := by rw [hval]; rfl
  have hc2 : ((Optimiser.init c use_gpu).recordAll usages).gpu_onnx_intra_threads =
      c.gpu_onnx_intra_threads := by rw [hval]; rfl
  rw [hc1] at honnx1
  rw [hc2] at honnx2
  subst hsave
  constructor
  · intro hd
    have hch : o'.changes_made c = true := by
      rcases hd with hd | hd <;> simp [Optimiser.changes_made, bne_iff_ne, hd]
    simp only [Optimiser.save_perf_optimisations, hch, if_true]
    rw [honnx1]
  · rintro ⟨he1, he2⟩
    have hch : o'.changes_made c = false := by
      simp [Optimiser.changes_made, he1, he2, honnx1, honnx2]
    simp only [Optimiser.save_perf_optimisations, hch, Bool.false_eq_true, if_false]

/-- Witness for C7: a CPU-bound run whose retained samples average 100
lowers the worker count from 2 to 1 and persists `⟨1, 4, 2⟩` with one file
rewrite; the store's `gpu_onnx_intra_threads` value is untouched. -/
theorem save_iff_worker_count_changed_witness :
    ((Optimiser.init ⟨2, 4, 2, 4⟩ false).recordAll [100, 100, 0]).optimise_performance 8
        ⟨⟨2, 4, 2, 4⟩, 0⟩ =
      .ok (⟨1, 4, 2, 4, false, [100, 100], []⟩, ⟨⟨1, 4, 2, 4⟩, 1⟩) ∧
    (⟨⟨1, 4, 2, 4⟩, 1⟩ : PerfStore) = ⟨⟨1, 4, 2, 4⟩, 0 + 1⟩ := by
  have hrun : ((Optimiser.init ⟨2, 4, 2, 4⟩ false).recordAll [100, 100, 0]).optimise_performance 8
      ⟨⟨2, 4, 2, 4⟩, 0⟩ = .ok (⟨1, 4, 2, 4, false, [100, 100], []⟩, ⟨⟨1, 4, 2, 4⟩, 1⟩) := by
    norm_num [Optimiser.recordAll, Optimiser.record_perf, Optimiser.init,
      Optimiser.optimise_performance, Optimiser.optimize_cpu_usage, listPop, listMean, ratMean,
      Optimiser.save_perf_optimisations, Optimiser.changes_made]
  exact ⟨hrun, (save_iff_worker_count_changed ⟨2, 4, 2, 4⟩ false 8 0 [100, 100, 0]
    ⟨1, 4, 2, 4, false, [100, 100], []⟩ ⟨⟨1, 4, 2, 4⟩, 1⟩ hrun).1 (Or.inl (by decide))⟩

/-! ### Helper lemmas about parser sections -/

theorem secFind_setSectionWhole_self (m : Sections) (s : String) (kvs : KVs) :
    secFind (setSectionWhole m s kvs) s = some kvs := by
  induction m with
  | nil => simp [setSectionWhole, secFind]
  | cons e rest ih =>
    obtain ⟨s2, kvs2⟩ := e
    by_cases h : s2 = s
    · simp [setSectionWhole, h, secFind]
    · simp [setSectionWhole, h, secFind, ih]

theorem secFind_setSectionWhole_ne (m : Sections) (s s2 : String) (kvs : KVs)
    (h : s2 ≠ s) : secFind (setSectionWhole m s kvs) s2 = secFind m s2 := by
  have h2 : ¬ s = s2 := fun hc => h hc.symm
  induction m with
  | nil => simp [setSectionWhole, secFind, h2]
  | cons e rest ih =>
    obtain ⟨s3, kvs3⟩ := e
    by_cases h3 : s3 = s
    · subst h3
      simp [setSectionWhole, secFind, h2]
    · simp [setSectionWhole, h3, secFind, ih]

theorem secFind_applySections (L : Sections) : ∀ (acc : Sections) (s : String),
    secFind (applySections acc L) s = (secFindLast L s).or (secFind acc s) := by
  induction L with
  | nil => intro acc s; simp [applySections, secFindLast]
  | cons e rest ih =>
    intro acc s
    obtain ⟨s1, kvs1⟩ := e
    show secFind (applySections (setSectionWhole acc s1 kvs1) rest) s = _
    rw [ih]
    rcases hlast : secFindLast rest s with _ | r
    · by_cases h1 : s1 = s
      · subst h1
        simp [secFindLast, hlast, secFind_setSectionWhole_self]
      · simp [secFindLast, hlast, h1, secFind_setSectionWhole_ne acc s1 s kvs1
          (fun hc => h1 hc.symm)]
    · simp [secFindLast, hlast]

theorem names_setSectionWhole (m : Sections) (s : String) (kvs : KVs) :
    (setSectionWhole m s kvs).map Prod.fst =
      if s ∈ m.map Prod.fst then m.map Prod.fst else m.map Prod.fst ++ [s] := by
  induction m with
  | nil => simp [setSectionWhole]
  | cons e rest ih =>
    obtain ⟨s2, kvs2⟩ := e
    by_cases h : s2 = s
    · subst h
      simp [setSectionWhole]
    · have h4 : ¬ s = s2 := fun hc => h hc.symm
      simp only [setSectionWhole, h, if_false, List.map_cons, ih, List.mem_cons]
      by_cases hm : s ∈ rest.map Prod.fst <;> simp [hm, h4]

theorem nodupNames_setSectionWhole (m : Sections) (s : String) (kvs : KVs)
    (h : NodupNames m) : NodupNames (setSectionWhole m s kvs) := by
  unfold NodupNames at h ⊢
  rw [names_setSectionWhole]
  by_cases hm : s ∈ m.map Prod.fst
  · simpa [hm]
  · simpa [hm, List.nodup_append] using h

theorem nodupNames_applySections (L : Sections) : ∀ (acc : Sections),
    NodupNames acc → NodupNames (applySections acc L) := by
  induction L with
  | nil => intro acc h; exact h
  | cons e rest ih =>
    intro acc h
    exact ih _ (nodupNames_setSectionWhole acc e.1 e.2 h)

theorem secFind_of_not_mem (m : Sections) (s : String)
    (h : s ∉ m.map Prod.fst) : secFind m s = none := by
  induction m with
  | nil => rfl
  | cons e rest ih =>
    obtain ⟨s2, kvs⟩ := e
    rw [List.map_cons, List.mem_cons] at h
    push_neg at h
    have h1 : ¬ s2 = s := fun hc => h.1 hc.symm
    simp [secFind, h1, ih h.2]

theorem secFindLast_of_not_mem (m : Sections) (s : String)
    (h : s ∉ m.map Prod.fst) : secFindLast m s = none := by
  induction m with
  | nil => rfl
  | cons e rest ih =>
    obtain ⟨s2, kvs⟩ := e
    rw [List.map_cons, List.mem_cons] at h
    push_neg at h
    have h1 : ¬ s2 = s := fun hc => h.1 hc.symm
    simp [secFindLast, h1, ih h.2]

theorem digitChar_isDigit (d : Nat) (h : d < 10) : (digitChar d).isDigit = true := by
  interval_cases d <;> decide

theorem digitChar_toNat (d : Nat) (h : d < 10) : (digitChar d).toNat = 48 + d := by
  interval_cases d <;> decide

theorem digitsVal_append (a : List Char) (c : Char) :
    digitsVal (a ++ [c]) = digitsVal a * 10 + (c.toNat - 48) := by
  simp only [digitsVal, List.foldl_append]
  rfl

theorem natDigitsAux_spec : ∀ (fuel n : Nat), n < fuel →
    (natDigitsAux fuel n).all (·.isDigit) = true ∧ natDigitsAux fuel n ≠ [] ∧
    digitsVal (natDigitsAux fuel n) = n := by
  intro fuel
  induction fuel with
  | zero => intro n h; omega
  | succ fuel ih =>
    intro n h
    by_cases h10 : n < 10
    · rw [natDigitsAux, if_pos h10]
      refine ⟨?_, by simp, ?_⟩
      · simp [digitChar_isDigit n h10]
      · simp [digitsVal, digitChar_toNat n h10]
    · rw [natDigitsAux, if_neg h10]
      have hlt : n / 10 < fuel := by
        have := Nat.div_lt_self (n := n) (by omega) (by omega : (1 : Nat) < 10)
        omega
      obtain ⟨ha, hne, hval⟩ := ih (n / 10) hlt
      refine ⟨?_, by simp, ?_⟩
      · rw [List.all_append]
        simp [ha, digitChar_isDigit (n % 10) (Nat.mod_lt _ (by omega))]
      · rw [digitsVal_append, hval, digitChar_toNat (n % 10) (Nat.mod_lt _ (by omega))]
        omega

theorem natDigits_spec (n : Nat) :
    (natDigits n).all (·.isDigit) = true ∧ natDigits n ≠ [] ∧ digitsVal (natDigits n) = n :=
  natDigitsAux_spec (n + 1) n (by omega)

theorem pyInt?_pyNatStr (n : Nat) : pyInt? (pyNatStr n) = some (n : Int) := by
  obtain ⟨ha, hne, hval⟩ := natDigits_spec n
  rcases hl : natDigits n with _ | ⟨c, cs⟩
  · exact absurd hl hne
  · rw [hl] at ha hval
    have hcd : c.isDigit = true := by
      rw [List.all_cons] at ha
      exact (Bool.and_eq_true_iff.mp ha).1
    have hc1 : ¬ c = '-' := by
      intro hc; rw [hc] at hcd; exact absurd hcd (by decide)
    have hc2 : ¬ c = '+' := by
      intro hc; rw [hc] at hcd; exact absurd hcd (by decide)
    have hdig : isDigits (c :: cs) = true := by
      rw [isDigits, ha]
      rfl
    have hstr : pyNatStr n = String.mk (c :: cs) := by rw [pyNatStr, hl]
    rw [hstr]
    show (if c = '-' then _ else if c = '+' then _
      else if isDigits (c :: cs) then some ((digitsVal (c :: cs) : Nat) : Int) else none) = _
    rw [if_neg hc1, if_neg hc2, if_pos hdig, hval]

theorem secFindLast_eq_secFind (m : Sections) (s : String) (h : NodupNames m) :
    secFindLast m s = secFind m s := by
  induction m with
  | nil => rfl
  | cons e rest ih =>
    obtain ⟨s2, kvs2⟩ := e
    rw [NodupNames, List.map_cons, List.nodup_cons] at h
    have hrest : NodupNames rest := h.2
    by_cases h2 : s2 = s
    · subst h2
      simp only [secFindLast, secFindLast_of_not_mem rest s2 h.1]
      simp [secFind]
    · simp only [secFindLast, ih hrest]
      rcases hsf : secFind rest s with _ | r <;> simp [secFind, h2, hsf]

theorem secFind_of_mem_nodup (L : Sections) (s : String) (kvs : KVs)
    (h : NodupNames L) (hm : (s, kvs) ∈ L) : secFind L s = some kvs := by
  induction L with
  | nil => simp at hm
  | cons e rest ih =>
    obtain ⟨s2, kvs2⟩ := e
    rw [NodupNames, List.map_cons, List.nodup_cons] at h
    rw [List.mem_cons] at hm
    rcases hm with hm | hm
    · rw [Prod.mk.injEq] at hm
      obtain ⟨rfl, rfl⟩ := hm
      simp [secFind]
    · have hsmem : s ∈ rest.map Prod.fst := List.mem_map_of_mem Prod.fst hm
      have hne : ¬ s2 = s := by intro hc; subst hc; exact h.1 hsmem
      simp [secFind, hne, ih h.2 hm]

/-! ### The schema defaults always load -/

theorem convert_pyNatStr (m : Nat) : convert (pyNatStr m) .cint = .ok (.vint (m : Int)) := by
  show (match pyInt? (pyNatStr m) with
    | some n => Except.ok (CVal.vint n)
    | none => Except.error CfgErr.valueError) = _
  rw [pyInt?_pyNatStr]

theorem kvGet_defaultKVs (data : List (String × CTy × String))
    (hnd : (data.map (fun kv => kv.1)).Nodup) :
    ∀ e ∈ data, kvGet (defaultKVs data) e.1 = some e.2.2 := by
  induction data with
  | nil => simp
  | cons kv rest ih =>
    rw [List.map_cons, List.nodup_cons] at hnd
    intro e he
    obtain ⟨k0, ty0, d0⟩ := kv
    rw [List.mem_cons] at he
    rcases he with he | he
    · subst he
      simp [defaultKVs, kvGet]
    · have hne : ¬ k0 = e.1 := by
        intro hc
        exact hnd.1 (hc ▸ List.mem_map_of_mem (fun kv => kv.1) he)
      simp only [defaultKVs, List.map_cons, kvGet, hne, if_false]
      exact ih hnd.2 e he

theorem loadKeys_defaults (sec : KVs) :
    ∀ (data : List (String × CTy × String)),
      (∀ e ∈ data, kvGet sec e.1 = some e.2.2) →
      (∀ e ∈ data, ∃ v, convert e.2.2 e.2.1 = .ok v) →
      loadKeys sec data = .ok (data.map (fun e => (e.1, defaultVal e.2.1 e.2.2))) := by
  intro data
  induction data with
  | nil => intro _ _; rfl
  | cons e rest ih =>
    intro hget hok
    obtain ⟨k, ty, d⟩ := e
    obtain ⟨v, hv⟩ := hok ⟨k, ty, d⟩ (by simp)
    have hg : (kvGet sec k).getD d = d := by
      rw [hget ⟨k, ty, d⟩ (by simp)]
      rfl
    simp only [loadKeys, hg, hv]
    rw [ih (fun e2 he2 => hget e2 (by simp [he2])) (fun e2 he2 => hok e2 (by simp [he2]))]
    simp [defaultVal, hv]

theorem loadSections_defaults (parser : Sections) :
    ∀ (L : List (String × List (String × CTy × String))),
      (∀ e ∈ L, secFind parser e.1 = some (defaultKVs e.2)) →
      (∀ e ∈ L, (e.2.map (fun kv => kv.1)).Nodup) →
      (∀ e ∈ L, ∀ kv ∈ e.2, ∃ v, convert kv.2.2 kv.2.1 = .ok v) →
      loadSections parser L =
        .ok (L.flatMap (fun e => e.2.map (fun kv => (kv.1, defaultVal kv.2.1 kv.2.2)))) := by
  intro L
  induction L with
  | nil => intro _ _ _; rfl
  | cons e rest ih =>
    intro hsec hnd hok
    obtain ⟨s, data⟩ := e
    have h1 := hsec ⟨s, data⟩ (by simp)
    have hl := loadKeys_defaults (defaultKVs data) data
      (kvGet_defaultKVs data (hnd ⟨s, data⟩ (by simp))) (hok ⟨s, data⟩ (by simp))
    simp only [loadSections, h1, hl,
      ih (fun e2 he2 => hsec e2 (by simp [he2])) (fun e2 he2 => hnd e2 (by simp [he2]))
        (fun e2 he2 => hok e2 (by simp [he2]))]
    simp

theorem schema_key_nodup (nc : Nat) :
    ∀ e ∈ config_schema nc, (e.2.map (fun kv => kv.1)).Nodup := by
  intro e he
  fin_cases he <;> simp

theorem schema_convert_ok (nc : Nat) :
    ∀ e ∈ config_schema nc, ∀ kv ∈ e.2, ∃ v, convert kv.2.2 kv.2.1 = .ok v := by
  intro e he kv hkv
  fin_cases he <;> fin_cases hkv <;> first
    | exact ⟨_, rfl⟩
    | exact ⟨_, convert_pyNatStr _⟩

theorem load_defaults (nc : Nat) (parser : Sections)
    (h : ∀ e ∈ config_schema nc, secFind parser e.1 = some (defaultKVs e.2)) :
    load_config nc parser = .ok (default_attrs nc) := by
  rw [load_config, default_attrs]
  exact loadSections_defaults parser (config_schema nc) h (schema_key_nodup nc)
    (schema_convert_ok nc)

theorem schema_names_nodup (nc : Nat) :
    NodupNames ((config_schema nc).map (fun e => (e.1, defaultKVs e.2))) := by
  have hn : (((config_schema nc).map (fun e => (e.1, defaultKVs e.2))).map Prod.fst)
      = ["Frame Extraction", "Text Extraction", "Subtitle Generator", "Subtitle Detection",
         "Notification", "OCR Engine", "OCR Performance", "Misc"] := rfl
  rw [NodupNames, hn]
  decide

theorem secFind_create_default (nc : Nat) (parser : Sections) :
    ∀ e ∈ config_schema nc,
      secFind (create_default_config_file nc parser) e.1 = some (defaultKVs e.2) := by
  intro e he
  rw [create_default_config_file, secFind_applySections,
    secFindLast_eq_secFind _ _ (schema_names_nodup nc),
    secFind_of_mem_nodup _ _ _ (schema_names_nodup nc) (List.mem_map_of_mem _ he)]
  rfl

theorem secFind_readMerge_self_default (nc : Nat) (parsed : Sections)
    (hnd : NodupNames parsed) :
    ∀ e ∈ config_schema nc,
      secFind (readMerge (create_default_config_file nc parsed)
        (create_default_config_file nc parsed)) e.1 = some (defaultKVs e.2) := by
  intro e he
  have hP : NodupNames (create_default_config_file nc parsed) := by
    rw [create_default_config_file]
    exact nodupNames_applySections _ parsed hnd
  rw [readMerge, secFind_applySections, secFindLast_eq_secFind _ _ hP,
    secFind_create_default nc parsed e he]
  rfl

/-- C4 (amended): loading the persisted configuration with any value that
cannot be converted to its declared type, or with a missing schema
section, triggers a full reset: the config file is deleted and regenerated
with every schema section holding exactly its defaults — though sections
unknown to the schema that the corrupt file contained are carried over
into the regenerated file by the parser (see the counterexample) — the
loaded attributes are exactly the schema defaults, so no
partially-converted value is kept, and exactly one file write occurs.  A
well-formed file is loaded as-is: the attributes come from the file and
the stored file is untouched (no write, no reset). -/
theorem config_loader_spec (nc : Nat) (file : Sections) (a0 : List (String × CVal)) (w : Nat) :
    (∀ attrs, load_config nc (readMerge [] file) = .ok attrs →
      config_loader nc ⟨[], some file, a0, w⟩ = ⟨readMerge [] file, some file, attrs, w⟩) ∧
    (∀ e, load_config nc (readMerge [] file) = .error e →
      config_loader nc ⟨[], some file, a0, w⟩ =
        ⟨readMerge (create_default_config_file nc (readMerge [] file))
            (create_default_config_file nc (readMerge [] file)),
         some (create_default_config_file nc (readMerge [] file)),
         default_attrs nc, w + 1⟩ ∧
      ∀ el ∈ config_schema nc,
        secFind (create_default_config_file nc (readMerge [] file)) el.1 =
          some (defaultKVs el.2)) := by
  constructor
  · intro attrs hok
    simp only [config_loader, load_attempt, hok, Option.getD_some]
  · intro e herr
    have hnd : NodupNames (readMerge [] file) := by
      rw [readMerge]
      exact nodupNames_applySections _ [] (by simp [NodupNames])
    have hload2 := load_defaults nc _ (secFind_readMerge_self_default nc (readMerge [] file) hnd)
    refine ⟨?_, secFind_create_default nc (readMerge [] file)⟩
    simp only [config_loader, load_attempt, herr, hload2, Option.getD_some]

/-- Witness for C4 (amended): a parsed file holding only an unknown
`Garbage` section has no schema sections, so the first load raises
`KeyError` and the loader resets to the regenerated-defaults state with
one file write. -/
theorem config_loader_spec_witness :
    config_loader 8 ⟨[], some [("Garbage", [("x", "1")])], [], 0⟩ =
      ⟨readMerge (create_default_config_file 8 (readMerge [] [("Garbage", [("x", "1")])]))
          (create_default_config_file 8 (readMerge [] [("Garbage", [("x", "1")])])),
       some (create_default_config_file 8 (readMerge [] [("Garbage", [("x", "1")])])),
       default_attrs 8, 0 + 1⟩ :=
  ((config_loader_spec 8 [("Garbage", [("x", "1")])] [] 0).2 .keyError rfl).1

/-- C4 counterexample: the regenerated file is *not* built entirely from
the schema defaults.  Resetting from a parsed file that contains an
unknown `Garbage` section (and is malformed for the loader, since every
schema section is missing) produces a file that still contains the
`Garbage` section with its old items, and therefore differs from the file
generated from schema defaults alone. -/
theorem config_reset_keeps_unknown_sections_cex :
    secFind ((config_loader 8 ⟨[], some [("Garbage", [("x", "1")])], [], 0⟩).file.getD [])
        "Garbage" = some [("x", "1")] ∧
    (config_loader 8 ⟨[], some [("Garbage", [("x", "1")])], [], 0⟩).file ≠
      some (create_default_config_file 8 []) := by
  constructor
  · rfl
  · intro hcontra
    have h1 : secFind ((config_loader 8
        ⟨[], some [("Garbage", [("x", "1")])], [], 0⟩).file.getD []) "Garbage"
        = some [("x", "1")] := rfl
    rw [hcontra] at h1
    have h2 : secFind (create_default_config_file 8 []) "Garbage" = none := rfl
    rw [Option.getD_some] at h1
    rw [h2] at h1
    exact Option.noConfusion h1

/-! ### Helper lemmas about `set_config` -/

theorem attrGet_attrSet_self (attrs : List (String × CVal)) (k : String) (v : CVal) :
    attrGet (attrSet attrs k v) k = some v := by
  induction attrs with
  | nil => simp [attrSet, attrGet]
  | cons e rest ih =>
    obtain ⟨k2, v2⟩ := e
    by_cases h : k2 = k <;> simp [attrSet, h, attrGet, ih]

theorem attrGet_attrSet_ne (attrs : List (String × CVal)) (k2 k : String) (v : CVal)
    (h : k2 ≠ k) : attrGet (attrSet attrs k2 v) k = attrGet attrs k := by
  have h2 : ¬ k2 = k := h
  induction attrs with
  | nil => simp [attrSet, attrGet, h2]
  | cons e rest ih =>
    obtain ⟨k3, v3⟩ := e
    by_cases h3 : k3 = k2
    · subst h3
      simp [attrSet, attrGet, h2]
    · simp [attrSet, h3, attrGet, ih]

theorem kvGet_kvSet_self (kvs : KVs) (k : String) (v : String) :
    kvGet (kvSet kvs k v) k = some v := by
  induction kvs with
  | nil => simp [kvSet, kvGet]
  | cons e rest ih =>
    obtain ⟨k2, v2⟩ := e
    by_cases h : k2 = k <;> simp [kvSet, h, kvGet, ih]

theorem kvGet_kvSet_ne (kvs : KVs) (k2 k : String) (v : String)
    (h : k2 ≠ k) : kvGet (kvSet kvs k2 v) k = kvGet kvs k := by
  have h2 : ¬ k2 = k := h
  induction kvs with
  | nil => simp [kvSet, kvGet, h2]
  | cons e rest ih =>
    obtain ⟨k3, v3⟩ := e
    by_cases h3 : k3 = k2
    · subst h3
      simp [kvSet, kvGet, h2]
    · simp [kvSet, h3, kvGet, ih]

theorem set_config_preserves (nc : Nat) :
    ∀ (kwargs : List (String × CVal)) (st st2 : CfgState) (k : String),
      set_config nc kwargs st = .ok st2 → (∀ e ∈ kwargs, e.1 ≠ k) →
      attrGet st2.attrs k = attrGet st.attrs k ∧
      (∀ s, (secFind st2.parser s).bind (fun kvs => kvGet kvs k) =
        (secFind st.parser s).bind (fun kvs => kvGet kvs k)) := by
  intro kwargs
  induction kwargs with
  | nil =>
    intro st st2 k h _
    injection h with h
    subst h
    exact ⟨rfl, fun _ => rfl⟩
  | cons e rest ih =>
    intro st st2 k h hk
    obtain ⟨k1, v1⟩ := e
    have hk1 : k1 ≠ k := hk (k1, v1) (by simp)
    rw [set_config] at h
    split at h
    · exact absurd h (by simp)
    · rename_i stA heq
      have hpres := ih stA st2 k h (fun e2 he2 => hk e2 (by simp [he2]))
      rw [setOne] at heq
      split at heq
      · injection heq with heq
        subst heq
        exact hpres
      · rename_i s hfind
        split at heq
        · exact absurd heq (by simp)
        · rename_i kvs hkvs
          injection heq with heq
          subst heq
          refine ⟨?_, fun s2 => ?_⟩
          · rw [hpres.1]
            exact attrGet_attrSet_ne st.attrs k1 k v1 hk1
          · rw [hpres.2 s2]
            show (secFind (setSectionWhole st.parser s (kvSet kvs k1 (pyStr v1))) s2).bind
              (fun kvs2 => kvGet kvs2 k) = _
            by_cases hs : s = s2
            · subst hs
              rw [secFind_setSectionWhole_self, hkvs]
              simp [kvGet_kvSet_ne kvs k1 k (pyStr v1) hk1]
            · rw [secFind_setSectionWhole_ne st.parser s s2 _ (fun hc => hs hc.symm)]

theorem set_config_filter_eq (nc : Nat) :
    ∀ (kwargs : List (String × CVal)) (st : CfgState),
      set_config nc kwargs st =
        set_config nc (kwargs.filter (fun e => (findSection (config_schema nc) e.1).isSome))
          st := by
  intro kwargs
  induction kwargs with
  | nil => intro st; rfl
  | cons e rest ih =>
    intro st
    obtain ⟨k, v⟩ := e
    rcases hf : findSection (config_schema nc) k with _ | s
    · have hdrop : ((k, v) :: rest).filter
          (fun e => (findSection (config_schema nc) e.1).isSome)
          = rest.filter (fun e => (findSection (config_schema nc) e.1).isSome) := by
        simp [List.filter_cons, hf]
      have hso : setOne nc st k v = .ok st := by
        rw [setOne, hf]
      rw [hdrop, set_config, hso]
      exact ih st
    · have hkeep : ((k, v) :: rest).filter
          (fun e => (findSection (config_schema nc) e.1).isSome)
          = (k, v) :: rest.filter (fun e => (findSection (config_schema nc) e.1).isSome) := by
        simp [List.filter_cons, hf]
      rw [hkeep]
      simp only [set_config]
      rcases hso : setOne nc st k v with er | stA
      · rfl
      · exact ih stA

theorem set_config_writes_file (nc : Nat) :
    ∀ (kwargs : List (String × CVal)) (st st2 : CfgState),
      set_config nc kwargs st = .ok st2 →
      st2.writes = st.writes + 1 ∧ st2.file = some st2.parser := by
  intro kwargs
  induction kwargs with
  | nil =>
    intro st st2 h
    injection h with h
    subst h
    exact ⟨rfl, rfl⟩
  | cons e rest ih =>
    intro st st2 h
    obtain ⟨k, v⟩ := e
    rw [set_config] at h
    split at h
    · exact absurd h (by simp)
    · rename_i stA heq
      obtain ⟨hw, hf⟩ := ih stA st2 h
      rw [setOne] at heq
      split at heq
      · injection heq with heq; subst heq; exact ⟨hw, hf⟩
      · split at heq
        · exact absurd heq (by simp)
        · injection heq with heq; subst heq
          exact ⟨hw, hf⟩

theorem set_config_applied (nc : Nat) :
    ∀ (kwargs : List (String × CVal)) (st st2 : CfgState) (k : String) (v : CVal) (s : String),
      set_config nc kwargs st = .ok st2 →
      (kwargs.map (fun e => e.1)).Nodup →
      (k, v) ∈ kwargs →
      findSection (config_schema nc) k = some s →
      attrGet st2.attrs k = some v ∧
      (secFind st2.parser s).bind (fun kvs => kvGet kvs k) = some (pyStr v) := by
  intro kwargs
  induction kwargs with
  | nil => intro st st2 k v s _ _ hm _; simp at hm
  | cons e rest ih =>
    intro st st2 k v s h hnd hm hfind
    obtain ⟨k1, v1⟩ := e
    rw [List.map_cons, List.nodup_cons] at hnd
    rw [set_config] at h
    split at h
    · exact absurd h (by simp)
    · rename_i stA heq
      rw [List.mem_cons] at hm
      rcases hm with hm | hm
      · rw [Prod.mk.injEq] at hm
        obtain ⟨h1, h2⟩ := hm
        subst h1
        subst h2
        rw [setOne] at heq
        split at heq
        · rename_i hn
          rw [hfind] at hn
          exact absurd hn (by simp)
        · rename_i s2 hs2
          rw [hfind] at hs2
          injection hs2 with hs2
          subst hs2
          split at heq
          · exact absurd heq (by simp)
          rename_i kvs hkvs
          injection heq with heq
          subst heq
          have hpres := set_config_preserves nc rest _ st2 k h (fun e2 he2 => by
            intro hc
            exact hnd.1 (hc ▸ List.mem_map_of_mem (fun e => e.1) he2))
          refine ⟨?_, ?_⟩
          · rw [hpres.1]
            exact attrGet_attrSet_self st.attrs k v
          · rw [hpres.2 s]
            show (secFind (setSectionWhole st.parser s (kvSet kvs k (pyStr v))) s).bind
              (fun kvs2 => kvGet kvs2 k) = _
            rw [secFind_setSectionWhole_self]
            simp [kvGet_kvSet_self]
      · exact ih stA st2 k v s h hnd.2 hm hfind

/-- Witness for C9: on CPU, zero recorded samples raise `IndexError`, one
raises `ZeroDivisionError`, two samples tune normally. -/
theorem optimise_performance_needs_two_samples_witness :
    ((Optimiser.init ⟨2, 4, 2, 4⟩ false).recordAll []).optimise_performance 8 ⟨⟨2, 4, 2, 4⟩, 0⟩ =
      .error .indexError ∧
    ((Optimiser.init ⟨2, 4, 2, 4⟩ false).recordAll [50]).optimise_performance 8 ⟨⟨2, 4, 2, 4⟩, 0⟩ =
      .error .zeroDivisionError ∧
    isOkE (((Optimiser.init ⟨2, 4, 2, 4⟩ false).recordAll [50, 60]).optimise_performance 8
      ⟨⟨2, 4, 2, 4⟩, 0⟩) = true :=
  ⟨(optimise_performance_needs_two_samples ⟨2, 4, 2, 4⟩ false 8 ⟨⟨2, 4, 2, 4⟩, 0⟩ []).1 rfl,
   (optimise_performance_needs_two_samples ⟨2, 4, 2, 4⟩ false 8 ⟨⟨2, 4, 2, 4⟩, 0⟩ [50]).2.1 rfl,
   (optimise_performance_needs_two_samples ⟨2, 4, 2, 4⟩ false 8 ⟨⟨2, 4, 2, 4⟩, 0⟩ [50, 60]).2.2
     (by decide)⟩

/-- C10: a `set_config` keyword argument whose key appears in no schema
section is silently ignored: the call behaves exactly as if the unknown
keys were absent (first conjunct); on return the file has been rewritten
exactly once from the final parser (second conjunct); a key mentioned by
no keyword argument — in particular an ignored unknown key — has its
in-memory attribute and every stored section entry left unchanged (third
conjunct); and every schema-known key in the same call is still applied,
to the attribute and to its section in the store (fourth conjunct). -/
theorem set_config_unknown_keys_ignored (nc : Nat) (kwargs : List (String × CVal))
    (st : CfgState) :
    set_config nc kwargs st =
      set_config nc (kwargs.filter (fun e => (findSection (config_schema nc) e.1).isSome)) st ∧
    (∀ st2, set_config nc kwargs st = .ok st2 →
      st2.writes = st.writes + 1 ∧ st2.file = some st2.parser) ∧
    (∀ st2 k, set_config nc kwargs st = .ok st2 → (∀ e ∈ kwargs, e.1 ≠ k) →
      attrGet st2.attrs k = attrGet st.attrs k ∧
      ∀ s, (secFind st2.parser s).bind (fun kvs => kvGet kvs k) =
        (secFind st.parser s).bind (fun kvs => kvGet kvs k)) ∧
    (∀ st2 k v s, set_config nc kwargs st = .ok st2 →
      (kwargs.map (fun e => e.1)).Nodup → (k, v) ∈ kwargs →
      findSection (config_schema nc) k = some s →
      attrGet st2.attrs k = some v ∧
      (secFind st2.parser s).bind (fun kvs => kvGet kvs k) = some (pyStr v)) :=
  ⟨set_config_filter_eq nc kwargs st,
   fun st2 h => set_config_writes_file nc kwargs st st2 h,
   fun st2 k h hk => set_config_preserves nc kwargs st st2 k h hk,
   fun st2 k v s h hnd hm hf => set_config_applied nc kwargs st st2 k v s h hnd hm hf⟩

/-- Witness for C10: setting the unknown key `bogus_key` together with the
known key `frame_extraction_frequency` behaves like setting the known key
alone; the run rewrites the file once, stores `"3"` in the Frame
Extraction section, sets the attribute, and leaves no trace of
`bogus_key`. -/
theorem set_config_unknown_keys_ignored_witness :
    set_config 8 [("bogus_key", CVal.vint 7), ("frame_extraction_frequency", CVal.vint 3)]
        ⟨[("Frame Extraction", [("frame_extraction_frequency", "2")])], none, [], 0⟩ =
      set_config 8 [("frame_extraction_frequency", CVal.vint 3)]
        ⟨[("Frame Extraction", [("frame_extraction_frequency", "2")])], none, [], 0⟩ ∧
    set_config 8 [("bogus_key", CVal.vint 7), ("frame_extraction_frequency", CVal.vint 3)]
        ⟨[("Frame Extraction", [("frame_extraction_frequency", "2")])], none, [], 0⟩ =
      .ok ⟨[("Frame Extraction", [("frame_extraction_frequency", "3")])],
           some [("Frame Extraction", [("frame_extraction_frequency", "3")])],
           [("frame_extraction_frequency", CVal.vint 3)], 1⟩ ∧
    (⟨[("Frame Extraction", [("frame_extraction_frequency", "3")])],
      some [("Frame Extraction", [("frame_extraction_frequency", "3")])],
      [("frame_extraction_frequency", CVal.vint 3)], 1⟩ : CfgState).writes = 0 + 1 ∧
    attrGet [("frame_extraction_frequency", CVal.vint 3)] "bogus_key" = attrGet [] "bogus_key" ∧
    attrGet [("frame_extraction_frequency", CVal.vint 3)] "frame_extraction_frequency" =
      some (CVal.vint 3) := by
  have hthm := set_config_unknown_keys_ignored 8
    [("bogus_key", CVal.vint 7), ("frame_extraction_frequency", CVal.vint 3)]
    ⟨[("Frame Extraction", [("frame_extraction_frequency", "2")])], none, [], 0⟩
  have hthmF := set_config_unknown_keys_ignored 8
    [("frame_extraction_frequency", CVal.vint 3)]
    ⟨[("Frame Extraction", [("frame_extraction_frequency", "2")])], none, [], 0⟩
  have hrun : set_config 8
      [("bogus_key", CVal.vint 7), ("frame_extraction_frequency", CVal.vint 3)]
      ⟨[("Frame Extraction", [("frame_extraction_frequency", "2")])], none, [], 0⟩ =
      .ok ⟨[("Frame Extraction", [("frame_extraction_frequency", "3")])],
           some [("Frame Extraction", [("frame_extraction_frequency", "3")])],
           [("frame_extraction_frequency", CVal.vint 3)], 1⟩ := rfl
  have hrunF : set_config 8 [("frame_extraction_frequency", CVal.vint 3)]
      ⟨[("Frame Extraction", [("frame_extraction_frequency", "2")])], none, [], 0⟩ =
      .ok ⟨[("Frame Extraction", [("frame_extraction_frequency", "3")])],
           some [("Frame Extraction", [("frame_extraction_frequency", "3")])],
           [("frame_extraction_frequency", CVal.vint 3)], 1⟩ := rfl
  refine ⟨hthm.1, hrun, (hthm.2.1 _ hrun).1, ?_, ?_⟩
  · exact (hthmF.2.2.1 _ "bogus_key" hrunF (by decide)).1
  · exact (hthm.2.2.2 _ "frame_extraction_frequency" (CVal.vint 3) "Frame Extraction" hrun
      (by decide) (by decide) (by decide)).1

end VidSubX
